import Mathlib

/-!
Verification development for the PixelFort content-addressable photo
storage service.  The definitions below are a shallow embedding of the
Python sources (src/api/main.py, src/api/models.py, src/api/config.py,
src/api/cleanup_orphans.py, src/api/image_utils.py): database tables
become lists of records, the photo storage directory becomes a list of
file names, HTTP exceptions become an error type, and the fallible
external effects (disk writes, PIL image parsing, SQLAlchemy commits)
become boolean or record-valued oracles supplied to each operation.
The SHA-256 hex digest computed by hashlib is treated as an abstract
parameter, a function from byte sequences to strings, since hashlib is
an external library; none of the properties below depend on more than
its determinism.
-/

namespace PixelFort

/-- Python pathlib: split a file name at its last dot, returning the
parts before and after the rightmost dot, or none when there is no dot.
Mirrors str.rfind used by PurePath.stem and PurePath.suffix. -/
def splitLastDot : List Char → Option (List Char × List Char)
  | [] => none
  | c :: cs =>
    match splitLastDot cs with
    | some (a, b) => some (c :: a, b)
    | none => if c = '.' then some ([], cs) else none

/-- Python Path(name).stem: the name without its last suffix.  The last
dot only counts when it is neither the first nor the last character. -/
def pathStem (s : String) : String :=
  match splitLastDot s.data with
  | some (a, b) => if a ≠ [] ∧ b ≠ [] then String.mk a else s
  | none => s

/-- Python Path(name).suffix: the last dot-separated extension, with
the dot, or the empty string when there is none. -/
def pathSuffix (s : String) : String :=
  match splitLastDot s.data with
  | some (a, b) => if a ≠ [] ∧ b ≠ [] then String.mk ('.' :: b) else ""
  | none => ""

/-- A row of the users table (src/api/models.py, class User). -/
structure User where
  id : Nat
  email : String
  username : String
  hashed_password : String
deriving Repr, DecidableEq

/-- A row of the photos table (src/api/models.py, class Photo).  The
EXIF timestamp and GPS values are carried opaquely as strings: the code
never computes with them, it only copies what piexif returned. -/
structure Photo where
  id : Nat
  filename : String
  original_filename : String
  file_path : String
  file_size : Nat
  mime_type : String
  file_hash : String
  user_id : Nat
  thumbnail_path : Option String
  date_taken : Option String
  camera_make : Option String
  camera_model : Option String
  gps_latitude : Option String
  gps_longitude : Option String
  width : Option Nat
  height : Option Nat
deriving Repr, DecidableEq

/-- The relational catalog: both tables of the SQLite database. -/
structure DB where
  users : List User
  photos : List Photo
deriving Repr, DecidableEq

/-- Full system state: the catalog plus the blob store, the latter as
the list of file names under /app/storage/photos. -/
structure SysState where
  db : DB
  blobs : List String
deriving Repr, DecidableEq

/-- How a request ends when it does not succeed: an HTTPException with
a status code and detail string, or an uncaught exception that escapes
the handler (FastAPI turns those into a 500 response). -/
inductive ApiError where
  | http (statusCode : Nat) (detail : String)
  | exn (msg : String)
deriving Repr, DecidableEq

/-- The storage directory in upload_photo (src/api/main.py). -/
def photoDir : String := "/app/storage/photos/"

/-- config.py Settings.MAX_UPLOAD_SIZE default: 10 MB in bytes. -/
def MAX_UPLOAD_SIZE : Nat := 10485760

/-- Python truthiness fallback x or d for optional strings: an absent
or empty string falls back to the default. -/
def orElseStr (x : Option String) (d : String) : String :=
  match x with
  | some s => if s = "" then d else s
  | none => d

/-- Result of extract_exif_data (src/api/image_utils.py): a dictionary
whose seven entries are each optional.  The function swallows every
exception, so it always yields such a record. -/
structure ExifData where
  date_taken : Option String
  camera_make : Option String
  camera_model : Option String
  gps_latitude : Option String
  gps_longitude : Option String
  width : Option Nat
  height : Option Nat
deriving Repr, DecidableEq

/-- The dictionary extract_exif_data initializes and returns unchanged
when the image cannot be parsed: every field is None. -/
def emptyExif : ExifData :=
  ⟨none, none, none, none, none, none, none⟩

/-- Outcomes of the external effects one run of upload_photo performs:
whether the open/write of the blob file raises, what generate_thumbnail
returns (it catches all exceptions and returns False on failure), what
extract_exif_data returns, and whether the db.commit of the insert
raises. -/
structure UploadOracle where
  writeOk : Bool
  thumbOk : Bool
  exif : ExifData
  insertOk : Bool
deriving Repr, DecidableEq

/-- upload_photo: extension taken from the original file name, with
.jpg as fallback when there is none. -/
def uploadExtension (origName : Option String) : String :=
  let original_name := orElseStr origName "unknown"
  let sfx := pathSuffix original_name
  if sfx = "" then ".jpg" else sfx

/-- upload_photo: content-addressed file name, digest plus extension. -/
def uploadFilename (digest : String) (origName : Option String) : String :=
  digest ++ uploadExtension origName

/-- The id the database generates for the next inserted photo row. -/
def nextPhotoId (db : DB) : Nat :=
  (db.photos.map (fun p => p.id)).foldr max 0 + 1

/-- The Photo row upload_photo constructs (src/api/main.py, lines
344-362): content-addressed file name, declared metadata, and the
outcomes of the best-effort thumbnail and EXIF steps. -/
def uploadRecord (sha : List Nat → String) (o : UploadOracle)
    (contents : List Nat) (origName : Option String)
    (contentType : Option String) (currentUser : User)
    (db : DB) : Photo :=
  { id := nextPhotoId db
    filename := uploadFilename (sha contents) origName
    original_filename := orElseStr origName "unknown"
    file_path := photoDir ++ uploadFilename (sha contents) origName
    file_size := contents.length
    mime_type := orElseStr contentType "application/octet-stream"
    file_hash := sha contents
    user_id := currentUser.id
    thumbnail_path :=
      if o.thumbOk then some (photoDir ++ (sha contents ++ ".thumb.jpg")) else none
    date_taken := o.exif.date_taken
    camera_make := o.exif.camera_make
    camera_model := o.exif.camera_model
    gps_latitude := o.exif.gps_latitude
    gps_longitude := o.exif.gps_longitude
    width := o.exif.width
    height := o.exif.height }

/-- Shallow embedding of upload_photo (src/api/main.py, lines 286-370).
Steps in source order: hash the bytes, reject when a row with that hash
exists (before any write), write the blob file, best-effort thumbnail
and EXIF extraction, then insert the catalog row.  A failing write or
a failing insert raises out of the handler; the insert failure leaves
the files just written on disk. -/
def uploadPhoto (sha : List Nat → String) (o : UploadOracle)
    (contents : List Nat) (origName : Option String)
    (contentType : Option String) (currentUser : User)
    (s : SysState) : Except ApiError Photo × SysState :=
  let file_hash := sha contents
  match s.db.photos.find? (fun p => p.file_hash = file_hash) with
  | some existing =>
      (Except.error (ApiError.http 400
        ("File already exists with id " ++ toString existing.id)), s)
  | none =>
      let filename := uploadFilename file_hash origName
      let thumbnail_filename := file_hash ++ ".thumb.jpg"
      if o.writeOk = false then
        (Except.error (ApiError.exn "disk write failed"), s)
      else
        let blobs1 := s.blobs ++ [filename]
        let blobs2 := if o.thumbOk then blobs1 ++ [thumbnail_filename] else blobs1
        let newPhoto : Photo :=
          uploadRecord sha o contents origName contentType currentUser s.db
        if o.insertOk then
          (Except.ok newPhoto,
            { db := { users := s.db.users, photos := s.db.photos ++ [newPhoto] }
              blobs := blobs2 })
        else
          (Except.error (ApiError.exn "catalog insert failed"),
            { db := s.db, blobs := blobs2 })

/-- Whether Path(path).exists() holds for a full path, given the file
names present in the storage directory. -/
def fileExistsAt (blobs : List String) (path : String) : Bool :=
  blobs.any (fun f => photoDir ++ f = path)

/-- Shallow embedding of delete_photo (src/api/main.py, lines 437-493).
Looks the row up (404 when absent), rejects a non-owner with 403,
deletes the catalog row and commits, then tries to unlink the file;
a missing file or a failing unlink is only logged and the request still
succeeds.  unlinkOk is the outcome of the file_path.unlink call. -/
def deletePhoto (unlinkOk : Bool) (photo_id : Nat) (currentUser : User)
    (s : SysState) : Except ApiError Unit × SysState :=
  match s.db.photos.find? (fun p => p.id = photo_id) with
  | none =>
      (Except.error (ApiError.http 404
        ("Photo with id " ++ toString photo_id ++ " not found")), s)
  | some photo =>
      if photo.user_id ≠ currentUser.id then
        (Except.error (ApiError.http 403
          "You can only delete your own photos"), s)
      else
        let s1 : SysState :=
          { db := { users := s.db.users
                    photos := s.db.photos.filter (fun p => p.id ≠ photo_id) }
            blobs := s.blobs }
        if fileExistsAt s.blobs photo.file_path ∧ unlinkOk then
          (Except.ok (),
            { s1 with blobs := s1.blobs.filter (fun f => photoDir ++ f ≠ photo.file_path) })
        else
          (Except.ok (), s1)

/-- Shallow embedding of delete_user (src/api/main.py, lines 136-167).
Rejects any id other than the caller's own with 403 before looking
anything up, then deletes the user row; SQLAlchemy's
cascade all, delete-orphan on User.photos (src/api/models.py) removes
the owned photo rows with it.  No file on disk is touched. -/
def deleteUser (user_id : Nat) (currentUser : User)
    (s : SysState) : Except ApiError Unit × SysState :=
  if user_id ≠ currentUser.id then
    (Except.error (ApiError.http 403
      "You can only delete your own account"), s)
  else
    match s.db.users.find? (fun u => u.id = user_id) with
    | none =>
        (Except.error (ApiError.http 404
          ("User with id " ++ toString user_id ++ " not found")), s)
    | some _ =>
        (Except.ok (),
          { db := { users := s.db.users.filter (fun u => u.id ≠ user_id)
                    photos := s.db.photos.filter (fun p => p.user_id ≠ user_id) }
            blobs := s.blobs })

/-- Body of a PATCH /users request (src/api/schemas.py UserUpdate):
both fields optional. -/
structure UserUpdate where
  email : Option String
  username : Option String
deriving Repr, DecidableEq

/-- Shallow embedding of update_user (src/api/main.py, lines 169-226).
Rejects any id other than the caller's own with 403 before looking the
target up, checks uniqueness of a changed email or username, then
applies the provided fields.  Python truthiness: an empty string counts
as not provided. -/
def updateUser (user_id : Nat) (ud : UserUpdate) (currentUser : User)
    (s : SysState) : Except ApiError User × SysState :=
  if user_id ≠ currentUser.id then
    (Except.error (ApiError.http 403
      "You can only update your own account"), s)
  else
    match s.db.users.find? (fun u => u.id = user_id) with
    | none =>
        (Except.error (ApiError.http 404
          ("User with id " ++ toString user_id ++ " not found")), s)
    | some user =>
        let emailGiven := orElseStr ud.email "" ≠ ""
        let newEmailConflict :=
          emailGiven ∧ orElseStr ud.email "" ≠ user.email ∧
            (s.db.users.find? (fun u => u.email = orElseStr ud.email "")).isSome
        if newEmailConflict then
          (Except.error (ApiError.http 400 "Email already registered"), s)
        else
          let nameGiven := orElseStr ud.username "" ≠ ""
          let newNameConflict :=
            nameGiven ∧ orElseStr ud.username "" ≠ user.username ∧
              (s.db.users.find? (fun u => u.username = orElseStr ud.username "")).isSome
          if newNameConflict then
            (Except.error (ApiError.http 400 "Username already taken"), s)
          else
            let user1 := if emailGiven then { user with email := orElseStr ud.email "" } else user
            let user2 := if nameGiven then { user1 with username := orElseStr ud.username "" } else user1
            (Except.ok user2,
              { db := { users := s.db.users.map (fun u => if u.id = user_id then user2 else u)
                        photos := s.db.photos }
                blobs := s.blobs })

/-- What a FileResponse carries back to the client: the on-disk path
served, the media type, the download file name when one is set, and
whether Content-Disposition is inline. -/
structure FileResp where
  path : String
  media_type : String
  download_name : Option String
  inline : Bool
deriving Repr, DecidableEq

/-- Shallow embedding of download_photo (src/api/main.py, lines
372-405): 404 when the row or the file is absent, otherwise the file
with the stored media type under the original file name.  The route
declares no authentication dependency, so the request carries no
principal at all. -/
def downloadPhoto (photo_id : Nat) (s : SysState) :
    Except ApiError FileResp :=
  match s.db.photos.find? (fun p => p.id = photo_id) with
  | none =>
      Except.error (ApiError.http 404
        ("Photo with id " ++ toString photo_id ++ " not found"))
  | some photo =>
      if fileExistsAt s.blobs photo.file_path = false then
        Except.error (ApiError.http 404
          ("Photo file not found on disk: " ++ photo.file_path))
      else
        Except.ok
          { path := photo.file_path
            media_type := photo.mime_type
            download_name := some photo.original_filename
            inline := false }

/-- Shallow embedding of view_photo (src/api/main.py, lines 407-435):
like download but served inline and without a download name.  No
authentication dependency. -/
def viewPhoto (photo_id : Nat) (s : SysState) :
    Except ApiError FileResp :=
  match s.db.photos.find? (fun p => p.id = photo_id) with
  | none =>
      Except.error (ApiError.http 404
        ("Photo with id " ++ toString photo_id ++ " not found"))
  | some photo =>
      if fileExistsAt s.blobs photo.file_path = false then
        Except.error (ApiError.http 404 "Photo file not found on disk")
      else
        Except.ok
          { path := photo.file_path
            media_type := photo.mime_type
            download_name := none
            inline := true }

/-- Shallow embedding of list_photos (src/api/main.py, lines 254-260):
returns every photo row.  No authentication dependency. -/
def listPhotos (s : SysState) : List Photo :=
  s.db.photos

/-- Shallow embedding of get_photo_thumbnail (src/api/main.py, lines
518-552): serves the thumbnail when the row has one and its file
exists, else falls back to the original file; 404 when the row or the
chosen file is absent.  No authentication dependency. -/
def getPhotoThumbnail (photo_id : Nat) (s : SysState) :
    Except ApiError FileResp :=
  match s.db.photos.find? (fun p => p.id = photo_id) with
  | none =>
      Except.error (ApiError.http 404
        ("Photo with id " ++ toString photo_id ++ " not found"))
  | some photo =>
      let chosen : String × String :=
        match photo.thumbnail_path with
        | some tp =>
            if tp ≠ "" ∧ fileExistsAt s.blobs tp then
              (tp, "thumb_" ++ photo.original_filename)
            else
              (photo.file_path, photo.original_filename)
        | none => (photo.file_path, photo.original_filename)
      if fileExistsAt s.blobs chosen.1 = false then
        Except.error (ApiError.http 404 "Thumbnail file not found on disk")
      else
        Except.ok
          { path := chosen.1
            media_type := "image/jpeg"
            download_name := none
            inline := true }

/-- An HTTP request to a route with no authentication dependency may
still carry (or not carry) a bearer token; FastAPI never resolves it
because the handler declares no such parameter.  These wrappers make
that explicit: the optional requesting principal is accepted at the
transport boundary and plays no part in the handler. -/
def downloadPhotoRequest (_requester : Option User) (photo_id : Nat)
    (s : SysState) : Except ApiError FileResp :=
  downloadPhoto photo_id s

/-- view_photo at the transport boundary: requester ignored. -/
def viewPhotoRequest (_requester : Option User) (photo_id : Nat)
    (s : SysState) : Except ApiError FileResp :=
  viewPhoto photo_id s

/-- list_photos at the transport boundary: requester ignored. -/
def listPhotosRequest (_requester : Option User) (s : SysState) :
    List Photo :=
  listPhotos s

/-- get_photo_thumbnail at the transport boundary: requester ignored. -/
def getPhotoThumbnailRequest (_requester : Option User) (photo_id : Nat)
    (s : SysState) : Except ApiError FileResp :=
  getPhotoThumbnail photo_id s

/-- cleanup_orphans.py: whether one storage file survives the sweep.
The script keeps .gitkeep and every file whose stem (file name before
the last extension) is a file_hash of some photo row; every other file
is unlinked. -/
def cleanupKeep (db_hashes : List String) (f : String) : Bool :=
  f = ".gitkeep" || db_hashes.contains (pathStem f)

/-- Shallow embedding of cleanup_orphaned_files
(src/api/cleanup_orphans.py, lines 11-44).  Collects the set of
file_hash values from the photos table, walks every file in the
storage directory, and deletes the ones cleanupKeep rejects.  The
catalog is only read, never written.  The Python function returns
None; the deleted count returned here is the number it prints. -/
def cleanupOrphanedFiles (s : SysState) : SysState × Nat :=
  let db_hashes := s.db.photos.map (fun p => p.file_hash)
  let kept := s.blobs.filter (fun f => cleanupKeep db_hashes f)
  let deleted_count := (s.blobs.filter (fun f => !cleanupKeep db_hashes f)).length
  ({ db := s.db, blobs := kept }, deleted_count)

/-! ### Helper lemmas about path splitting and lists -/

theorem splitLastDot_eq_none {cs : List Char} (h : splitLastDot cs = none) :
    '.' ∉ cs := by
  induction cs with
  | nil => simp
  | cons c cs ih =>
    simp only [splitLastDot] at h
    cases hcs : splitLastDot cs with
    | some ab => rw [hcs] at h; simp at h
    | none =>
      rw [hcs] at h
      by_cases hc : c = '.'
      · rw [if_pos hc] at h; simp at h
      · simp only [List.mem_cons, not_or]
        exact ⟨fun he => hc he.symm, ih hcs⟩

theorem splitLastDot_eq_none_of_no_dot {cs : List Char} (h : '.' ∉ cs) :
    splitLastDot cs = none := by
  induction cs with
  | nil => rfl
  | cons c cs ih =>
    simp only [List.mem_cons, not_or] at h
    simp only [splitLastDot, ih h.2]
    rw [if_neg (fun hc => h.1 hc.symm)]

theorem splitLastDot_snd_no_dot {cs a b : List Char}
    (h : splitLastDot cs = some (a, b)) : '.' ∉ b := by
  induction cs generalizing a b with
  | nil => simp [splitLastDot] at h
  | cons c cs ih =>
    simp only [splitLastDot] at h
    cases hcs : splitLastDot cs with
    | some ab =>
      rw [hcs] at h
      cases ab with
      | mk a0 b0 =>
        simp only [Option.some.injEq, Prod.mk.injEq] at h
        rw [← h.2]
        exact ih hcs
    | none =>
      rw [hcs] at h
      by_cases hc : c = '.'
      · rw [if_pos hc] at h
        simp only [Option.some.injEq, Prod.mk.injEq] at h
        rw [← h.2]
        exact splitLastDot_eq_none hcs
      · rw [if_neg hc] at h; simp at h

theorem splitLastDot_append {xs ys : List Char} (h : '.' ∉ ys) :
    splitLastDot (xs ++ '.' :: ys) = some (xs, ys) := by
  induction xs with
  | nil =>
    simp only [List.nil_append, splitLastDot,
      splitLastDot_eq_none_of_no_dot h]
    simp
  | cons x xs ih =>
    have ih2 : splitLastDot (xs.append ('.' :: ys)) = some (xs, ys) := ih
    simp only [List.cons_append, splitLastDot, ih2, ih]

theorem pathStem_append {d ext : String} (hd1 : d.data ≠ [])
    (hrest : ∃ b : List Char, ext.data = '.' :: b ∧ b ≠ [] ∧ '.' ∉ b) :
    pathStem (d ++ ext) = d := by
  obtain ⟨b, hb, hbne, hbnd⟩ := hrest
  have hdata : (d ++ ext).data = d.data ++ '.' :: b := by
    rw [String.data_append, hb]
  rw [pathStem]
  simp only [hdata, splitLastDot_append hbnd]
  rw [if_pos ⟨hd1, hbne⟩]

theorem pathSuffix_shape (s : String) (h : pathSuffix s ≠ "") :
    ∃ b : List Char, (pathSuffix s).data = '.' :: b ∧ b ≠ [] ∧ '.' ∉ b := by
  rw [pathSuffix] at h ⊢
  cases hsp : splitLastDot s.data with
  | none =>
    simp only [hsp] at h
    exact absurd rfl h
  | some ab =>
    cases ab with
    | mk a b =>
      simp only [hsp] at h ⊢
      by_cases hab : a ≠ [] ∧ b ≠ []
      · rw [if_pos hab] at h ⊢
        exact ⟨b, rfl, hab.2, splitLastDot_snd_no_dot hsp⟩
      · rw [if_neg hab] at h
        exact absurd rfl h

/-- The extension upload_photo computes always has exactly one dot, as
its first character, and at least one character after it. -/
theorem uploadExtension_shape (origName : Option String) :
    ∃ b : List Char, (uploadExtension origName).data = '.' :: b ∧ b ≠ [] ∧ '.' ∉ b := by
  simp only [uploadExtension]
  by_cases h0 : pathSuffix (orElseStr origName "unknown") = ""
  · rw [if_pos h0]
    exact ⟨['j', 'p', 'g'], rfl, by decide, by decide⟩
  · rw [if_neg h0]
    exact pathSuffix_shape _ h0

/-- The content file name and the thumbnail file name of one upload
never coincide: the extension has exactly one dot, .thumb.jpg has two. -/
theorem uploadFilename_ne_thumb (digest : String) (origName : Option String) :
    uploadFilename digest origName ≠ digest ++ ".thumb.jpg" := by
  intro he
  obtain ⟨b, hb, hbne, hbnd⟩ := uploadExtension_shape origName
  have h2 := congrArg String.data he
  rw [uploadFilename, String.data_append, String.data_append] at h2
  have hext := List.append_cancel_left h2
  rw [hb] at hext
  have hlit : (".thumb.jpg" : String).data
      = ['.', 't', 'h', 'u', 'm', 'b', '.', 'j', 'p', 'g'] := rfl
  rw [hlit] at hext
  injection hext with h3 h4
  rw [h4] at hbnd
  exact hbnd (by decide)

/-- upload_photo on a duplicate digest: rejected with a 400 naming the
existing row, before any write, the state untouched. -/
theorem uploadPhoto_dup {sha : List Nat → String} {o : UploadOracle}
    {contents : List Nat} {n ct : Option String} {u : User} {s : SysState}
    {ex : Photo}
    (hfind : s.db.photos.find? (fun p => p.file_hash = sha contents) = some ex) :
    uploadPhoto sha o contents n ct u s =
      (Except.error (ApiError.http 400
        ("File already exists with id " ++ toString ex.id)), s) := by
  simp only [uploadPhoto, hfind]

/-- upload_photo on a fresh digest with a successful disk write:
characterization of the result in terms of the oracle outcomes. -/
theorem uploadPhoto_fresh {sha : List Nat → String} {o : UploadOracle}
    {contents : List Nat} {n ct : Option String} {u : User} {s : SysState}
    (hfresh : s.db.photos.find? (fun p => p.file_hash = sha contents) = none)
    (hw : o.writeOk = true) :
    uploadPhoto sha o contents n ct u s =
      (if o.insertOk then
         Except.ok (uploadRecord sha o contents n ct u s.db)
       else Except.error (ApiError.exn "catalog insert failed"),
       { db := if o.insertOk then
                 { users := s.db.users
                   photos := s.db.photos ++ [uploadRecord sha o contents n ct u s.db] }
               else s.db
         blobs := if o.thumbOk then
                    s.blobs ++ [uploadFilename (sha contents) n]
                      ++ [sha contents ++ ".thumb.jpg"]
                  else s.blobs ++ [uploadFilename (sha contents) n] }) := by
  cases hi : o.insertOk <;> cases ht : o.thumbOk <;>
    simp [uploadPhoto, hfresh, hw, hi, ht]

/-! ### Claims -/

instance {ε α : Type} [DecidableEq ε] [DecidableEq α] :
    DecidableEq (Except ε α) := fun a b =>
  match a, b with
  | Except.ok x, Except.ok y =>
      if h : x = y then isTrue (by rw [h]) else
        isFalse (fun he => h (by injection he))
  | Except.ok x, Except.error y => isFalse (fun he => by injection he)
  | Except.error x, Except.ok y => isFalse (fun he => by injection he)
  | Except.error x, Except.error y =>
      if h : x = y then isTrue (by rw [h]) else
        isFalse (fun he => h (by injection he))

/-- C1: uploading bytes whose SHA-256 digest already has a catalog row
fails with the 400 duplicate error naming the existing row's id and
leaves the whole state untouched (no blob write, no catalog write);
and after storing identical bytes twice from a state fresh for that
digest, the first upload succeeded, the second was rejected naming the
first upload's row, and exactly one catalog row and exactly one
content blob exist for that digest. -/
theorem claim_C1 (sha : List Nat → String) (o o2 : UploadOracle)
    (contents : List Nat) (n1 n2 ct1 ct2 : Option String) (u1 u2 : User)
    (s : SysState)
    (hfresh : s.db.photos.find? (fun p => p.file_hash = sha contents) = none)
    (hblob : uploadFilename (sha contents) n1 ∉ s.blobs)
    (hw : o.writeOk = true) (hi : o.insertOk = true) :
    (∀ (s1 : SysState) (ex : Photo),
       s1.db.photos.find? (fun p => p.file_hash = sha contents) = some ex →
       uploadPhoto sha o2 contents n2 ct2 u2 s1 =
         (Except.error (ApiError.http 400
           ("File already exists with id " ++ toString ex.id)), s1)) ∧
    (uploadPhoto sha o contents n1 ct1 u1 s).1 =
      Except.ok (uploadRecord sha o contents n1 ct1 u1 s.db) ∧
    uploadPhoto sha o2 contents n2 ct2 u2
        (uploadPhoto sha o contents n1 ct1 u1 s).2 =
      (Except.error (ApiError.http 400
        ("File already exists with id "
          ++ toString (uploadRecord sha o contents n1 ct1 u1 s.db).id)),
       (uploadPhoto sha o contents n1 ct1 u1 s).2) ∧
    ((uploadPhoto sha o contents n1 ct1 u1 s).2.db.photos.filter
        (fun p => p.file_hash = sha contents)).length = 1 ∧
    ((uploadPhoto sha o contents n1 ct1 u1 s).2.blobs.filter
        (fun f => f = uploadFilename (sha contents) n1)).length = 1 := by
  have hch := @uploadPhoto_fresh sha o contents n1 ct1 u1 s hfresh hw
  rw [hi] at hch
  simp only [if_true] at hch
  have hnil : s.db.photos.filter (fun p => p.file_hash = sha contents) = [] := by
    rw [List.filter_eq_nil_iff]
    intro a ha
    simpa using List.find?_eq_none.mp hfresh a ha
  have hbnil : s.blobs.filter
      (fun f => f = uploadFilename (sha contents) n1) = [] := by
    rw [List.filter_eq_nil_iff]
    intro a ha hfa
    simp only [decide_eq_true_eq] at hfa
    exact hblob (hfa ▸ ha)
  refine ⟨fun s1 ex hfind => uploadPhoto_dup hfind, ?_, ?_, ?_, ?_⟩
  · rw [hch]
  · apply uploadPhoto_dup
    rw [hch]
    simp only [List.find?_append, hfresh, uploadRecord]
    simp [List.find?]
  · rw [hch]
    simp only [List.filter_append, hnil]
    simp [uploadRecord]
  · rw [hch]
    have hthumb : ((sha contents ++ ".thumb.jpg" : String) =
        uploadFilename (sha contents) n1) = False := by
      simp only [eq_iff_iff, iff_false]
      exact fun he => uploadFilename_ne_thumb (sha contents) n1 he.symm
    cases ht : o.thumbOk <;>
      simp [List.filter_append, hbnil, hthumb]

/-- Witness for C1 at a concrete input: one user uploads the bytes
[0, 1] twice into an empty system. -/
theorem claim_C1_witness :
    ((⟨⟨[⟨1, "a@x", "alice", "pw"⟩], []⟩, []⟩ :
        SysState).db.photos.find?
      (fun p => p.file_hash = (fun b => "d" ++ String.join (b.map toString))
        [0, 1]) = none) ∧
    (uploadFilename ((fun b => "d" ++ String.join (b.map toString)) [0, 1])
        (some "cat.png") ∉ ([] : List String)) ∧
    (uploadPhoto (fun b => "d" ++ String.join (b.map toString))
        ⟨true, true, emptyExif, true⟩ [0, 1] (some "cat.png")
        (some "image/png") ⟨1, "a@x", "alice", "pw"⟩
        ⟨⟨[⟨1, "a@x", "alice", "pw"⟩], []⟩, []⟩).1 =
      Except.ok (uploadRecord (fun b => "d" ++ String.join (b.map toString))
        ⟨true, true, emptyExif, true⟩ [0, 1] (some "cat.png")
        (some "image/png") ⟨1, "a@x", "alice", "pw"⟩
        ⟨[⟨1, "a@x", "alice", "pw"⟩], []⟩) := by
  refine ⟨rfl, by simp, ?_⟩
  exact (claim_C1 (fun b => "d" ++ String.join (b.map toString))
    ⟨true, true, emptyExif, true⟩ ⟨true, true, emptyExif, true⟩ [0, 1]
    (some "cat.png") (some "cat.png") (some "image/png") (some "image/png")
    ⟨1, "a@x", "alice", "pw"⟩ ⟨1, "a@x", "alice", "pw"⟩
    ⟨⟨[⟨1, "a@x", "alice", "pw"⟩], []⟩, []⟩
    rfl (by simp) rfl rfl).2.1

/-- C2 counterexample: in an empty system a user uploads the bytes [7]
and the catalog insert fails; the handler surfaces the raw exception
and the blob file d2.jpg it just wrote is still on disk — the code has
no compensating delete, contrary to the claim. -/
theorem claim_C2_counterexample :
    (uploadPhoto (fun _ => "d2") ⟨true, false, emptyExif, false⟩ [7]
        none none ⟨1, "a@x", "alice", "pw"⟩
        ⟨⟨[⟨1, "a@x", "alice", "pw"⟩], []⟩, []⟩).1 =
      Except.error (ApiError.exn "catalog insert failed") ∧
    "d2.jpg" ∈ (uploadPhoto (fun _ => "d2") ⟨true, false, emptyExif, false⟩
        [7] none none ⟨1, "a@x", "alice", "pw"⟩
        ⟨⟨[⟨1, "a@x", "alice", "pw"⟩], []⟩, []⟩).2.blobs := by
  decide

/-- C2 amended: when the blob write succeeds and the catalog insert
then fails, upload_photo lets the exception propagate, no catalog row
persists, and the blob just written remains on disk as an orphan — the
coordinator performs no compensating delete. -/
theorem claim_C2_amended (sha : List Nat → String) (o : UploadOracle)
    (contents : List Nat) (n ct : Option String) (u : User) (s : SysState)
    (hfresh : s.db.photos.find? (fun p => p.file_hash = sha contents) = none)
    (hw : o.writeOk = true) (hi : o.insertOk = false) :
    (uploadPhoto sha o contents n ct u s).1 =
      Except.error (ApiError.exn "catalog insert failed") ∧
    (uploadPhoto sha o contents n ct u s).2.db = s.db ∧
    uploadFilename (sha contents) n ∈ (uploadPhoto sha o contents n ct u s).2.blobs := by
  have hch := @uploadPhoto_fresh sha o contents n ct u s hfresh hw
  rw [hi] at hch
  simp only [Bool.false_eq_true, if_false] at hch
  rw [hch]
  refine ⟨rfl, rfl, ?_⟩
  cases ht : o.thumbOk <;> simp [ht]

/-- Witness for the amended C2 at the concrete input of the
counterexample. -/
theorem claim_C2_amended_witness :
    (uploadPhoto (fun _ => "d2") ⟨true, false, emptyExif, false⟩ [7]
        none none ⟨1, "a@x", "alice", "pw"⟩
        ⟨⟨[⟨1, "a@x", "alice", "pw"⟩], []⟩, []⟩).1 =
      Except.error (ApiError.exn "catalog insert failed") ∧
    uploadFilename "d2" none ∈ (uploadPhoto (fun _ => "d2")
        ⟨true, false, emptyExif, false⟩ [7] none none
        ⟨1, "a@x", "alice", "pw"⟩
        ⟨⟨[⟨1, "a@x", "alice", "pw"⟩], []⟩, []⟩).2.blobs := by
  have h := claim_C2_amended (fun _ => "d2") ⟨true, false, emptyExif, false⟩
    [7] none none ⟨1, "a@x", "alice", "pw"⟩
    ⟨⟨[⟨1, "a@x", "alice", "pw"⟩], []⟩, []⟩ rfl rfl rfl
  exact ⟨h.1, h.2.2⟩

/-- The invariant of claim C3: every catalog row's content file is
present in the blob store. -/
def CatalogBacked (s : SysState) : Prop :=
  ∀ p ∈ s.db.photos, p.filename ∈ s.blobs

/-- States reachable from s by any sequence of store operations, each
an upload_photo run with arbitrary bytes, names, principal and
external-effect outcomes. -/
inductive StoreReach (sha : List Nat → String) : SysState → SysState → Prop
  | refl (s : SysState) : StoreReach sha s s
  | step (s t : SysState) (o : UploadOracle) (contents : List Nat)
      (n ct : Option String) (u : User) :
      StoreReach sha s t →
      StoreReach sha s (uploadPhoto sha o contents n ct u t).2

/-- One upload_photo run preserves the catalog-backed invariant,
whatever its oracle outcomes. -/
theorem uploadPhoto_preserves_backed (sha : List Nat → String)
    (o : UploadOracle) (contents : List Nat) (n ct : Option String)
    (u : User) (t : SysState) (ht : CatalogBacked t) :
    CatalogBacked (uploadPhoto sha o contents n ct u t).2 := by
  cases hf : t.db.photos.find? (fun p => p.file_hash = sha contents) with
  | some ex =>
    rw [uploadPhoto_dup hf]
    exact ht
  | none =>
    cases hw : o.writeOk with
    | false =>
      have hstop : uploadPhoto sha o contents n ct u t =
          (Except.error (ApiError.exn "disk write failed"), t) := by
        simp [uploadPhoto, hf, hw]
      rw [hstop]
      exact ht
    | true =>
      rw [uploadPhoto_fresh hf hw]
      intro p hp
      cases hi : o.insertOk <;> cases hth : o.thumbOk <;>
        simp only [hi, hth, if_true, if_false, Bool.false_eq_true] at hp ⊢ <;>
        simp only [List.mem_append, List.mem_singleton] at hp ⊢
      · exact Or.inl (ht p hp)
      · exact Or.inl (Or.inl (ht p hp))
      · rcases hp with hp | hp
        · exact Or.inl (ht p hp)
        · rw [hp]
          exact Or.inr rfl
      · rcases hp with hp | hp
        · exact Or.inl (Or.inl (ht p hp))
        · rw [hp]
          exact Or.inl (Or.inr rfl)

/-- C3: along any sequence of store operations the blob write precedes
the catalog insert, so from a catalog-backed state every reachable
state is catalog-backed: every committed row's content file is in the
blob store.  Moreover the ordering is visible directly: a run whose
catalog insert fails has nonetheless written its blob. -/
theorem claim_C3 (sha : List Nat → String) (s t : SysState)
    (h : StoreReach sha s t) (hs : CatalogBacked s) :
    CatalogBacked t ∧
    (∀ (o : UploadOracle) (contents : List Nat) (n ct : Option String)
       (u : User), o.writeOk = true →
       t.db.photos.find? (fun p => p.file_hash = sha contents) = none →
       uploadFilename (sha contents) n ∈
         (uploadPhoto sha o contents n ct u t).2.blobs) := by
  constructor
  · induction h with
    | refl => exact hs
    | step t o contents n ct u hr ih =>
      exact uploadPhoto_preserves_backed sha o contents n ct u t ih
  · intro o contents n ct u hw hfresh
    rw [uploadPhoto_fresh hfresh hw]
    cases hth : o.thumbOk <;> cases hi : o.insertOk <;> simp [hth, hi]

/-- Witness for C3 at a concrete input: the empty system is
catalog-backed and reaches itself. -/
theorem claim_C3_witness :
    CatalogBacked ⟨⟨[], []⟩, []⟩ ∧
    (CatalogBacked ⟨⟨[], []⟩, []⟩ ∧
      (∀ (o : UploadOracle) (contents : List Nat) (n ct : Option String)
         (u : User), o.writeOk = true →
         (⟨⟨[], []⟩, []⟩ : SysState).db.photos.find?
           (fun p => p.file_hash = (fun _ => "d3") contents) = none →
         uploadFilename ((fun _ => "d3") contents) n ∈
           (uploadPhoto (fun _ => "d3") o contents n ct u
             ⟨⟨[], []⟩, []⟩).2.blobs)) := by
  have hempty : CatalogBacked ⟨⟨[], []⟩, []⟩ := by
    intro p hp
    exact absurd hp (List.not_mem_nil p)
  exact ⟨hempty, claim_C3 (fun _ => "d3") ⟨⟨[], []⟩, []⟩ ⟨⟨[], []⟩, []⟩
    (StoreReach.refl _) hempty⟩

/-- Decidable shape of a well-formed extension: one leading dot and a
nonempty, dot-free remainder. -/
def extShape (ext : String) : Prop :=
  ext.data.head? = some '.' ∧ ext.data.tail ≠ [] ∧ '.' ∉ ext.data.tail

instance (ext : String) : Decidable (extShape ext) := by
  unfold extShape
  infer_instance

theorem extShape_elim {ext : String} (h : extShape ext) :
    ∃ b : List Char, ext.data = '.' :: b ∧ b ≠ [] ∧ '.' ∉ b := by
  obtain ⟨h1, h2, h3⟩ := h
  cases hd : ext.data with
  | nil => rw [hd] at h1; simp at h1
  | cons c cs =>
    rw [hd] at h1 h2 h3
    simp only [List.head?_cons, Option.some.injEq] at h1
    simp only [List.tail_cons] at h2 h3
    refine ⟨cs, ?_, h2, h3⟩
    rw [h1]

/-- A storage file is matched when some catalog row references it,
either as its content file or as its thumbnail. -/
def blobMatched (db : DB) (f : String) : Bool :=
  db.photos.any (fun p => p.filename = f || p.thumbnail_path = some (photoDir ++ f))

/-- Catalog fixture for C4: one photo row with digest h, content file
h.jpg and thumbnail h.thumb.jpg. -/
def sampleDbC4 : DB :=
  ⟨[⟨1, "a@x", "alice", "pw"⟩],
   [⟨1, "h.jpg", "o.jpg", photoDir ++ "h.jpg", 3, "image/jpeg", "h", 1,
     some (photoDir ++ "h.thumb.jpg"), none, none, none, none, none, none,
     none⟩]⟩

/-- C4 counterexample: a store holding exactly the content file and
the thumbnail file of one live catalog row — every blob matched, zero
orphans, so the claim demands zero deletions and an untouched store —
yet cleanup_orphaned_files deletes the thumbnail (its stem h.thumb is
not a catalog hash) and reports one deletion.  The code also consults
no grace window and returns no scanned/deleted report. -/
theorem claim_C4_counterexample :
    (∀ f ∈ ["h.jpg", "h.thumb.jpg"], blobMatched sampleDbC4 f = true) ∧
    cleanupOrphanedFiles ⟨sampleDbC4, ["h.jpg", "h.thumb.jpg"]⟩ =
      (⟨sampleDbC4, ["h.jpg"]⟩, 1) ∧
    cleanupOrphanedFiles ⟨sampleDbC4, ["h.jpg", "h.thumb.jpg"]⟩ ≠
      (⟨sampleDbC4, ["h.jpg", "h.thumb.jpg"]⟩, 0) := by
  decide

/-- C4 amended: cleanup_orphaned_files never touches the catalog, and
deletes exactly the storage files (other than .gitkeep) whose stem is
not a catalog file_hash, regardless of age: every content file of the
form digest ++ extension for a live row survives, every file whose
stem matches no row (which includes every thumbnail file) is deleted,
and the printed deletion count is the number of such files.  No
scanned/deleted report is returned: the Python function returns None. -/
theorem claim_C4_amended (s : SysState) :
    (cleanupOrphanedFiles s).1.db = s.db ∧
    (∀ f ∈ s.blobs, ∀ p ∈ s.db.photos, ∀ ext : String,
       f = p.file_hash ++ ext → p.file_hash.data ≠ [] →
       '.' ∉ p.file_hash.data → extShape ext →
       f ∈ (cleanupOrphanedFiles s).1.blobs) ∧
    (∀ f ∈ s.blobs,
       pathStem f ∉ s.db.photos.map (fun p => p.file_hash) →
       f ≠ ".gitkeep" → f ∉ (cleanupOrphanedFiles s).1.blobs) ∧
    (cleanupOrphanedFiles s).2 =
      (s.blobs.filter (fun f => decide (f ≠ ".gitkeep" ∧
        pathStem f ∉ s.db.photos.map (fun p => p.file_hash)))).length := by
  refine ⟨rfl, ?_, ?_, ?_⟩
  · intro f hf p hp ext hfe hh1 hh2 hsh
    have hstem : pathStem f = p.file_hash := by
      rw [hfe]
      exact pathStem_append hh1 (extShape_elim hsh)
    simp only [cleanupOrphanedFiles, List.mem_filter]
    refine ⟨hf, ?_⟩
    simp only [cleanupKeep, hstem, Bool.or_eq_true]
    right
    simpa using List.mem_map_of_mem (fun p => p.file_hash) hp
  · intro f hf hst hgk hmem
    simp only [cleanupOrphanedFiles, List.mem_filter, cleanupKeep,
      Bool.or_eq_true, decide_eq_true_eq] at hmem
    rcases hmem.2 with hc | hc
    · exact hgk hc
    · exact hst (by simpa using hc)
  · simp only [cleanupOrphanedFiles]
    congr 1
    apply List.filter_congr
    intro f hf
    by_cases hgk : f = ".gitkeep" <;>
      by_cases hst : pathStem f ∈ s.db.photos.map (fun p => p.file_hash) <;>
      simp [cleanupKeep, hgk, hst]

/-- Witness for the amended C4 at the concrete fixture of the
counterexample: the content file h.jpg survives, the thumbnail
h.thumb.jpg is deleted, the catalog is untouched, the count is 1. -/
theorem claim_C4_amended_witness :
    (cleanupOrphanedFiles ⟨sampleDbC4, ["h.jpg", "h.thumb.jpg"]⟩).1.db =
      sampleDbC4 ∧
    "h.jpg" ∈ (cleanupOrphanedFiles
      ⟨sampleDbC4, ["h.jpg", "h.thumb.jpg"]⟩).1.blobs ∧
    "h.thumb.jpg" ∉ (cleanupOrphanedFiles
      ⟨sampleDbC4, ["h.jpg", "h.thumb.jpg"]⟩).1.blobs ∧
    (cleanupOrphanedFiles ⟨sampleDbC4, ["h.jpg", "h.thumb.jpg"]⟩).2 = 1 := by
  have h := claim_C4_amended ⟨sampleDbC4, ["h.jpg", "h.thumb.jpg"]⟩
  refine ⟨h.1, ?_, ?_, ?_⟩
  · exact h.2.1 "h.jpg" (by decide)
      ⟨1, "h.jpg", "o.jpg", photoDir ++ "h.jpg", 3, "image/jpeg", "h", 1,
        some (photoDir ++ "h.thumb.jpg"), none, none, none, none, none, none,
        none⟩
      (by decide) ".jpg" (by decide) (by decide) (by decide) (by decide)
  · exact h.2.2.1 "h.thumb.jpg" (by decide) (by decide) (by decide)
  · rw [h.2.2.2]
    decide

/-- A minimal photo row fixture: digest h stored as file fn, owner
uid, no thumbnail, no derived metadata. -/
def mkSamplePhoto (i : Nat) (h fn : String) (uid : Nat) : Photo :=
  ⟨i, fn, "o.jpg", photoDir ++ fn, 3, "image/jpeg", h, uid, none,
   none, none, none, none, none, none, none⟩

/-- C5 counterexample: a principal owning three catalog rows deletes
their account; the rows are cascade-deleted but all three blobs are
still on disk, contrary to the claim that the blobs are removed. -/
theorem claim_C5_counterexample :
    (deleteUser 1 ⟨1, "a@x", "alice", "pw"⟩
        ⟨⟨[⟨1, "a@x", "alice", "pw"⟩],
          [mkSamplePhoto 1 "h1" "h1.jpg" 1, mkSamplePhoto 2 "h2" "h2.jpg" 1,
           mkSamplePhoto 3 "h3" "h3.jpg" 1]⟩,
         ["h1.jpg", "h2.jpg", "h3.jpg"]⟩).1 = Except.ok () ∧
    (deleteUser 1 ⟨1, "a@x", "alice", "pw"⟩
        ⟨⟨[⟨1, "a@x", "alice", "pw"⟩],
          [mkSamplePhoto 1 "h1" "h1.jpg" 1, mkSamplePhoto 2 "h2" "h2.jpg" 1,
           mkSamplePhoto 3 "h3" "h3.jpg" 1]⟩,
         ["h1.jpg", "h2.jpg", "h3.jpg"]⟩).2 =
      ⟨⟨[], []⟩, ["h1.jpg", "h2.jpg", "h3.jpg"]⟩ := by
  decide

/-- C5 amended: deleting a principal removes the principal row and all
of its catalog rows (the cascade), but removes no blob: the owned
files all remain on disk, as orphans for the cleanup script. -/
theorem claim_C5_amended (u : User) (s : SysState) (w : User)
    (hfind : s.db.users.find? (fun x => x.id = u.id) = some w) :
    deleteUser u.id u s =
      (Except.ok (),
        ⟨⟨s.db.users.filter (fun x => x.id ≠ u.id),
          s.db.photos.filter (fun p => p.user_id ≠ u.id)⟩, s.blobs⟩) := by
  simp [deleteUser, hfind]

/-- Witness for the amended C5 at the concrete fixture of the
counterexample. -/
theorem claim_C5_amended_witness :
    (⟨⟨[⟨1, "a@x", "alice", "pw"⟩],
       [mkSamplePhoto 1 "h1" "h1.jpg" 1, mkSamplePhoto 2 "h2" "h2.jpg" 1,
        mkSamplePhoto 3 "h3" "h3.jpg" 1]⟩,
      ["h1.jpg", "h2.jpg", "h3.jpg"]⟩ : SysState).db.users.find?
      (fun x => x.id = 1) = some ⟨1, "a@x", "alice", "pw"⟩ ∧
    deleteUser 1 ⟨1, "a@x", "alice", "pw"⟩
      ⟨⟨[⟨1, "a@x", "alice", "pw"⟩],
        [mkSamplePhoto 1 "h1" "h1.jpg" 1, mkSamplePhoto 2 "h2" "h2.jpg" 1,
         mkSamplePhoto 3 "h3" "h3.jpg" 1]⟩,
       ["h1.jpg", "h2.jpg", "h3.jpg"]⟩ =
      (Except.ok (),
        ⟨⟨[⟨1, "a@x", "alice", "pw"⟩].filter (fun x => x.id ≠ 1),
          [mkSamplePhoto 1 "h1" "h1.jpg" 1, mkSamplePhoto 2 "h2" "h2.jpg" 1,
           mkSamplePhoto 3 "h3" "h3.jpg" 1].filter (fun p => p.user_id ≠ 1)⟩,
         ["h1.jpg", "h2.jpg", "h3.jpg"]⟩) := by
  exact ⟨by decide, claim_C5_amended ⟨1, "a@x", "alice", "pw"⟩
    ⟨⟨[⟨1, "a@x", "alice", "pw"⟩],
      [mkSamplePhoto 1 "h1" "h1.jpg" 1, mkSamplePhoto 2 "h2" "h2.jpg" 1,
       mkSamplePhoto 3 "h3" "h3.jpg" 1]⟩,
     ["h1.jpg", "h2.jpg", "h3.jpg"]⟩ ⟨1, "a@x", "alice", "pw"⟩ (by decide)⟩

/-- C6 counterexample: principal alice sends two delete requests, one
for id 10 (a photo owned by bob) and one for id 99 (no such photo).
The responses differ — 403 with one detail string against 404 with
another — so the rejection is not constant-shape: it reveals whether
the resource exists. -/
theorem claim_C6_counterexample :
    (deletePhoto true 10 ⟨1, "a@x", "alice", "pw"⟩
        ⟨⟨[⟨1, "a@x", "alice", "pw"⟩, ⟨2, "b@x", "bob", "pw"⟩],
          [mkSamplePhoto 10 "hb" "hb.jpg" 2]⟩, ["hb.jpg"]⟩).1 =
      Except.error (ApiError.http 403 "You can only delete your own photos") ∧
    (deletePhoto true 99 ⟨1, "a@x", "alice", "pw"⟩
        ⟨⟨[⟨1, "a@x", "alice", "pw"⟩, ⟨2, "b@x", "bob", "pw"⟩],
          [mkSamplePhoto 10 "hb" "hb.jpg" 2]⟩, ["hb.jpg"]⟩).1 =
      Except.error (ApiError.http 404 "Photo with id 99 not found") ∧
    (deletePhoto true 10 ⟨1, "a@x", "alice", "pw"⟩
        ⟨⟨[⟨1, "a@x", "alice", "pw"⟩, ⟨2, "b@x", "bob", "pw"⟩],
          [mkSamplePhoto 10 "hb" "hb.jpg" 2]⟩, ["hb.jpg"]⟩).1 ≠
      (deletePhoto true 99 ⟨1, "a@x", "alice", "pw"⟩
        ⟨⟨[⟨1, "a@x", "alice", "pw"⟩, ⟨2, "b@x", "bob", "pw"⟩],
          [mkSamplePhoto 10 "hb" "hb.jpg" 2]⟩, ["hb.jpg"]⟩).1 := by
  decide

/-- C6 amended: photo deletion is not constant-shape — a missing id is
rejected 404 (revealing absence) while another principal's photo is
rejected 403 (revealing existence), in both cases with no state
change; user delete and update, by contrast, reject any foreign id
with the same 403 before any lookup, regardless of existence. -/
theorem claim_C6_amended (unlinkOk : Bool) (u : User) (s : SysState)
    (pid pid2 : Nat) (photo : Photo) (ud : UserUpdate)
    (h1 : s.db.photos.find? (fun p => p.id = pid) = none)
    (h2 : s.db.photos.find? (fun p => p.id = pid2) = some photo)
    (h3 : photo.user_id ≠ u.id) :
    deletePhoto unlinkOk pid u s =
      (Except.error (ApiError.http 404
        ("Photo with id " ++ toString pid ++ " not found")), s) ∧
    deletePhoto unlinkOk pid2 u s =
      (Except.error (ApiError.http 403
        "You can only delete your own photos"), s) ∧
    (∀ uid : Nat, uid ≠ u.id →
      (deleteUser uid u s).1 =
        Except.error (ApiError.http 403
          "You can only delete your own account") ∧
      (updateUser uid ud u s).1 =
        Except.error (ApiError.http 403
          "You can only update your own account")) := by
  refine ⟨?_, ?_, ?_⟩
  · simp [deletePhoto, h1]
  · simp [deletePhoto, h2, h3]
  · intro uid huid
    exact ⟨by simp [deleteUser, huid], by simp [updateUser, huid]⟩

/-- Witness for the amended C6 at the concrete fixture of the
counterexample. -/
theorem claim_C6_amended_witness :
    (deletePhoto true 99 ⟨1, "a@x", "alice", "pw"⟩
        ⟨⟨[⟨1, "a@x", "alice", "pw"⟩, ⟨2, "b@x", "bob", "pw"⟩],
          [mkSamplePhoto 10 "hb" "hb.jpg" 2]⟩, ["hb.jpg"]⟩) =
      (Except.error (ApiError.http 404 "Photo with id 99 not found"),
        ⟨⟨[⟨1, "a@x", "alice", "pw"⟩, ⟨2, "b@x", "bob", "pw"⟩],
          [mkSamplePhoto 10 "hb" "hb.jpg" 2]⟩, ["hb.jpg"]⟩) ∧
    (deleteUser 2 ⟨1, "a@x", "alice", "pw"⟩
        ⟨⟨[⟨1, "a@x", "alice", "pw"⟩, ⟨2, "b@x", "bob", "pw"⟩],
          [mkSamplePhoto 10 "hb" "hb.jpg" 2]⟩, ["hb.jpg"]⟩).1 =
      Except.error (ApiError.http 403
        "You can only delete your own account") := by
  have h := claim_C6_amended true ⟨1, "a@x", "alice", "pw"⟩
    ⟨⟨[⟨1, "a@x", "alice", "pw"⟩, ⟨2, "b@x", "bob", "pw"⟩],
      [mkSamplePhoto 10 "hb" "hb.jpg" 2]⟩, ["hb.jpg"]⟩
    99 10 (mkSamplePhoto 10 "hb" "hb.jpg" 2) ⟨none, none⟩
    (by decide) (by decide) (by decide)
  exact ⟨h.1, (h.2.2 2 (by decide)).1⟩

/-- C7: on an authorized photo deletion the catalog row is deleted and
committed first, and the request then succeeds whatever the blob
unlink does: whether the file is absent or the unlink fails, the
result is success and the catalog row stays deleted; only when the
file exists and the unlink succeeds is it removed from the store. -/
theorem claim_C7 (unlinkOk : Bool) (pid : Nat) (u : User) (s : SysState)
    (photo : Photo)
    (hfind : s.db.photos.find? (fun p => p.id = pid) = some photo)
    (hown : photo.user_id = u.id) :
    (deletePhoto unlinkOk pid u s).1 = Except.ok () ∧
    (deletePhoto unlinkOk pid u s).2.db.photos =
      s.db.photos.filter (fun p => p.id ≠ pid) ∧
    (deletePhoto unlinkOk pid u s).2.db.users = s.db.users ∧
    ((unlinkOk = false ∨ fileExistsAt s.blobs photo.file_path = false) →
      (deletePhoto unlinkOk pid u s).2.blobs = s.blobs) ∧
    ((unlinkOk = true ∧ fileExistsAt s.blobs photo.file_path = true) →
      (deletePhoto unlinkOk pid u s).2.blobs =
        s.blobs.filter (fun f => photoDir ++ f ≠ photo.file_path)) := by
  have hneq : ¬(photo.user_id ≠ u.id) := fun h => h hown
  by_cases hcond : (fileExistsAt s.blobs photo.file_path = true ∧ unlinkOk = true)
  · have hstep : deletePhoto unlinkOk pid u s =
        (Except.ok (),
          ⟨⟨s.db.users, s.db.photos.filter (fun p => p.id ≠ pid)⟩,
            s.blobs.filter (fun f => photoDir ++ f ≠ photo.file_path)⟩) := by
      simp only [deletePhoto, hfind]
      rw [if_neg hneq, if_pos hcond]
    rw [hstep]
    refine ⟨rfl, rfl, rfl, ?_, fun _ => rfl⟩
    intro hx
    rcases hx with hx | hx
    · rw [hx] at hcond
      exact absurd hcond.2 (by decide)
    · rw [hx] at hcond
      exact absurd hcond.1 (by decide)
  · have hstep : deletePhoto unlinkOk pid u s =
        (Except.ok (),
          ⟨⟨s.db.users, s.db.photos.filter (fun p => p.id ≠ pid)⟩,
            s.blobs⟩) := by
      simp only [deletePhoto, hfind]
      rw [if_neg hneq, if_neg hcond]
    rw [hstep]
    refine ⟨rfl, rfl, rfl, fun _ => rfl, ?_⟩
    intro hx
    exact absurd ⟨hx.2, hx.1⟩ hcond

/-- Witness for C7 at a concrete input: bob deletes his own photo while
the unlink fails; the request succeeds and the row is gone. -/
theorem claim_C7_witness :
    ((⟨⟨[⟨2, "b@x", "bob", "pw"⟩], [mkSamplePhoto 10 "hb" "hb.jpg" 2]⟩,
        ["hb.jpg"]⟩ : SysState).db.photos.find? (fun p => p.id = 10) =
      some (mkSamplePhoto 10 "hb" "hb.jpg" 2)) ∧
    (deletePhoto false 10 ⟨2, "b@x", "bob", "pw"⟩
        ⟨⟨[⟨2, "b@x", "bob", "pw"⟩], [mkSamplePhoto 10 "hb" "hb.jpg" 2]⟩,
          ["hb.jpg"]⟩).1 = Except.ok () ∧
    (deletePhoto false 10 ⟨2, "b@x", "bob", "pw"⟩
        ⟨⟨[⟨2, "b@x", "bob", "pw"⟩], [mkSamplePhoto 10 "hb" "hb.jpg" 2]⟩,
          ["hb.jpg"]⟩).2.db.photos =
      [mkSamplePhoto 10 "hb" "hb.jpg" 2].filter (fun p => p.id ≠ 10) ∧
    (deletePhoto false 10 ⟨2, "b@x", "bob", "pw"⟩
        ⟨⟨[⟨2, "b@x", "bob", "pw"⟩], [mkSamplePhoto 10 "hb" "hb.jpg" 2]⟩,
          ["hb.jpg"]⟩).2.blobs = ["hb.jpg"] := by
  have h := claim_C7 false 10 ⟨2, "b@x", "bob", "pw"⟩
    ⟨⟨[⟨2, "b@x", "bob", "pw"⟩], [mkSamplePhoto 10 "hb" "hb.jpg" 2]⟩,
      ["hb.jpg"]⟩ (mkSamplePhoto 10 "hb" "hb.jpg" 2) (by decide) (by decide)
  exact ⟨by decide, h.1, h.2.1, h.2.2.2.1 (Or.inl rfl)⟩

/-- C8: when derivation fails on the uploaded bytes — the thumbnail
step returns failure and EXIF extraction returns its all-None
dictionary — the store still succeeds: the blob is written, the row is
inserted, and the row carries no thumbnail reference and no derived
metadata; the derivation failure never surfaces as a request error. -/
theorem claim_C8 (sha : List Nat → String) (o : UploadOracle)
    (contents : List Nat) (n ct : Option String) (u : User) (s : SysState)
    (hfresh : s.db.photos.find? (fun p => p.file_hash = sha contents) = none)
    (hw : o.writeOk = true) (hi : o.insertOk = true)
    (hth : o.thumbOk = false) (hex : o.exif = emptyExif) :
    (uploadPhoto sha o contents n ct u s).1 =
      Except.ok (uploadRecord sha o contents n ct u s.db) ∧
    (uploadPhoto sha o contents n ct u s).2.db.photos =
      s.db.photos ++ [uploadRecord sha o contents n ct u s.db] ∧
    uploadFilename (sha contents) n ∈ (uploadPhoto sha o contents n ct u s).2.blobs ∧
    (uploadRecord sha o contents n ct u s.db).thumbnail_path = none ∧
    (uploadRecord sha o contents n ct u s.db).date_taken = none ∧
    (uploadRecord sha o contents n ct u s.db).camera_make = none ∧
    (uploadRecord sha o contents n ct u s.db).camera_model = none ∧
    (uploadRecord sha o contents n ct u s.db).gps_latitude = none ∧
    (uploadRecord sha o contents n ct u s.db).gps_longitude = none ∧
    (uploadRecord sha o contents n ct u s.db).width = none ∧
    (uploadRecord sha o contents n ct u s.db).height = none := by
  have hch := @uploadPhoto_fresh sha o contents n ct u s hfresh hw
  rw [hi] at hch
  simp only [if_true] at hch
  rw [hch]
  refine ⟨rfl, rfl, ?_, ?_, ?_, ?_, ?_, ?_, ?_, ?_, ?_⟩ <;>
    simp [uploadRecord, hth, hex, emptyExif]

/-- Witness for C8 at a concrete input: corrupt bytes [9] uploaded into
an empty system with failing derivation. -/
theorem claim_C8_witness :
    (uploadPhoto (fun _ => "d8") ⟨true, false, emptyExif, true⟩ [9]
        none none ⟨1, "a@x", "alice", "pw"⟩ ⟨⟨[], []⟩, []⟩).1 =
      Except.ok (uploadRecord (fun _ => "d8") ⟨true, false, emptyExif, true⟩
        [9] none none ⟨1, "a@x", "alice", "pw"⟩ ⟨[], []⟩) ∧
    (uploadRecord (fun _ => "d8") ⟨true, false, emptyExif, true⟩
        [9] none none ⟨1, "a@x", "alice", "pw"⟩ ⟨[], []⟩).thumbnail_path =
      none ∧
    (uploadRecord (fun _ => "d8") ⟨true, false, emptyExif, true⟩
        [9] none none ⟨1, "a@x", "alice", "pw"⟩ ⟨[], []⟩).width = none := by
  have h := claim_C8 (fun _ => "d8") ⟨true, false, emptyExif, true⟩ [9]
    none none ⟨1, "a@x", "alice", "pw"⟩ ⟨⟨[], []⟩, []⟩
    rfl rfl rfl rfl rfl
  exact ⟨h.1, h.2.2.2.1, h.2.2.2.2.2.2.2.2.2.1⟩

/-- C9: the download, view, list and thumbnail read routes declare no
authentication dependency, so their result is identical for every
requesting principal, anonymous included; and whenever the row exists
and its file is on disk they serve the photo's file, media type and
metadata to that arbitrary requester. -/
theorem claim_C9 (r1 r2 : Option User) (pid : Nat) (s : SysState)
    (photo : Photo)
    (hfind : s.db.photos.find? (fun p => p.id = pid) = some photo)
    (hfile : fileExistsAt s.blobs photo.file_path = true) :
    downloadPhotoRequest r1 pid s = downloadPhotoRequest r2 pid s ∧
    viewPhotoRequest r1 pid s = viewPhotoRequest r2 pid s ∧
    listPhotosRequest r1 s = listPhotosRequest r2 s ∧
    getPhotoThumbnailRequest r1 pid s = getPhotoThumbnailRequest r2 pid s ∧
    downloadPhotoRequest r1 pid s = Except.ok
      ⟨photo.file_path, photo.mime_type, some photo.original_filename, false⟩ ∧
    viewPhotoRequest r1 pid s = Except.ok
      ⟨photo.file_path, photo.mime_type, none, true⟩ ∧
    listPhotosRequest r1 s = s.db.photos ∧
    (getPhotoThumbnailRequest r1 pid s).isOk = true := by
  refine ⟨rfl, rfl, rfl, rfl, ?_, ?_, rfl, ?_⟩
  · simp [downloadPhotoRequest, downloadPhoto, hfind, hfile]
  · simp [viewPhotoRequest, viewPhoto, hfind, hfile]
  · simp only [getPhotoThumbnailRequest, getPhotoThumbnail, hfind]
    cases htp : photo.thumbnail_path with
    | none => simp [hfile, Except.isOk, Except.toBool]
    | some tp =>
      by_cases hc : (tp ≠ "" ∧ fileExistsAt s.blobs tp = true)
      · simp [hc, hc.2, Except.isOk, Except.toBool]
      · simp [hc, hfile, Except.isOk, Except.toBool]

/-- Witness for C9 at a concrete input: an anonymous requester and
bob both fetch alice's photo. -/
theorem claim_C9_witness :
    downloadPhotoRequest none 10
        ⟨⟨[⟨1, "a@x", "alice", "pw"⟩], [mkSamplePhoto 10 "ha" "ha.jpg" 1]⟩,
          ["ha.jpg"]⟩ =
      downloadPhotoRequest (some ⟨2, "b@x", "bob", "pw"⟩) 10
        ⟨⟨[⟨1, "a@x", "alice", "pw"⟩], [mkSamplePhoto 10 "ha" "ha.jpg" 1]⟩,
          ["ha.jpg"]⟩ ∧
    downloadPhotoRequest none 10
        ⟨⟨[⟨1, "a@x", "alice", "pw"⟩], [mkSamplePhoto 10 "ha" "ha.jpg" 1]⟩,
          ["ha.jpg"]⟩ =
      Except.ok ⟨photoDir ++ "ha.jpg", "image/jpeg", some "o.jpg", false⟩ ∧
    listPhotosRequest (some ⟨2, "b@x", "bob", "pw"⟩)
        ⟨⟨[⟨1, "a@x", "alice", "pw"⟩], [mkSamplePhoto 10 "ha" "ha.jpg" 1]⟩,
          ["ha.jpg"]⟩ = [mkSamplePhoto 10 "ha" "ha.jpg" 1] := by
  have h := claim_C9 none (some ⟨2, "b@x", "bob", "pw"⟩) 10
    ⟨⟨[⟨1, "a@x", "alice", "pw"⟩], [mkSamplePhoto 10 "ha" "ha.jpg" 1]⟩,
      ["ha.jpg"]⟩ (mkSamplePhoto 10 "ha" "ha.jpg" 1) (by decide) (by decide)
  have h2 := claim_C9 (some ⟨2, "b@x", "bob", "pw"⟩) none 10
    ⟨⟨[⟨1, "a@x", "alice", "pw"⟩], [mkSamplePhoto 10 "ha" "ha.jpg" 1]⟩,
      ["ha.jpg"]⟩ (mkSamplePhoto 10 "ha" "ha.jpg" 1) (by decide) (by decide)
  exact ⟨h.1, h.2.2.2.2.1, h2.2.2.2.2.2.2.1⟩

set_option linter.unusedVariables false in
/-- C10: the upload path never consults MAX_UPLOAD_SIZE — an uploaded
byte sequence strictly larger than the configured limit is accepted
exactly like any other: the row is inserted and the upload succeeds,
with no size-based rejection anywhere in the handler. -/
theorem claim_C10 (sha : List Nat → String) (o : UploadOracle)
    (contents : List Nat) (n ct : Option String) (u : User) (s : SysState)
    (hfresh : s.db.photos.find? (fun p => p.file_hash = sha contents) = none)
    (hw : o.writeOk = true) (hi : o.insertOk = true)
    (hbig : contents.length > MAX_UPLOAD_SIZE) :
    (uploadPhoto sha o contents n ct u s).1 =
      Except.ok (uploadRecord sha o contents n ct u s.db) ∧
    (uploadPhoto sha o contents n ct u s).2.db.photos =
      s.db.photos ++ [uploadRecord sha o contents n ct u s.db] := by
  have hch := @uploadPhoto_fresh sha o contents n ct u s hfresh hw
  rw [hi] at hch
  simp only [if_true] at hch
  rw [hch]
  exact ⟨rfl, rfl⟩

/-- Witness for C10 at a concrete input: a byte sequence one byte over
the 10 MB limit uploaded into an empty system. -/
theorem claim_C10_witness :
    (List.replicate (MAX_UPLOAD_SIZE + 1) 0).length > MAX_UPLOAD_SIZE ∧
    (uploadPhoto (fun _ => "dX") ⟨true, true, emptyExif, true⟩
        (List.replicate (MAX_UPLOAD_SIZE + 1) 0) none none
        ⟨1, "a@x", "alice", "pw"⟩ ⟨⟨[], []⟩, []⟩).1 =
      Except.ok (uploadRecord (fun _ => "dX") ⟨true, true, emptyExif, true⟩
        (List.replicate (MAX_UPLOAD_SIZE + 1) 0) none none
        ⟨1, "a@x", "alice", "pw"⟩ ⟨[], []⟩) := by
  have hbig : (List.replicate (MAX_UPLOAD_SIZE + 1) 0).length > MAX_UPLOAD_SIZE := by
    rw [List.length_replicate]
    exact Nat.lt_succ_self _
  exact ⟨hbig, (claim_C10 (fun _ => "dX") ⟨true, true, emptyExif, true⟩
    (List.replicate (MAX_UPLOAD_SIZE + 1) 0) none none
    ⟨1, "a@x", "alice", "pw"⟩ ⟨⟨[], []⟩, []⟩ rfl rfl rfl hbig).1⟩

end PixelFort
